import Mathlib

/-!
Shallow embedding of `dbms/src/Storages/StorageURL.cpp`.

The file models the three units of the source:
  * `StorageURLSource` (lines 52-114): the pull-based read session with its
    `generate` method, the lazy `initialized` flag and the wrapped reader;
  * `StorageURLBlockOutputStream` (lines 116-159): the push-based write
    session with `write`, `writePrefix` and `writeSuffix`;
  * `registerStorageURL` (lines 223-256) and the compression resolution done
    by `IStorageURLBase::read` / `IStorageURLBase::write` (lines 187-221).

External collaborators (the HTTP buffers, the format codec obtained from the
FormatFactory, the `AddingDefaultsBlockInputStream` wrapper) are modelled as
black boxes by the sequence of results their calls return, and every call into
them is recorded as an observable event, so that the hook-ordering properties
of the source can be stated over event traces.
-/

/-- A decoded block: its column names and its row count. In the source a
`Block` converts to `true` exactly when it holds at least one column, which is
how `generate` (line 100) detects end of data. -/
structure Block where
  columns : List String
  rows : Nat
deriving DecidableEq

/-- The empty block, what `IBlockInputStream::read` returns once the stream is
exhausted. -/
def Block.emptyBlock : Block := ⟨[], 0⟩

/-- C++ `Block::operator bool`: the block has at least one column. -/
def Block.toBool (b : Block) : Bool := !b.columns.isEmpty

/-- The chunk handed to the engine: `Chunk(block.getColumns(), block.rows())`
on line 101; `return {}` (lines 93 and 106) is the empty chunk. -/
structure Chunk where
  columns : List String
  rows : Nat
deriving DecidableEq

/-- The empty chunk (`return {}`), the end-of-sequence signal. -/
def Chunk.emptyChunk : Chunk := ⟨[], 0⟩

/-- The chunk built from a block on line 101. -/
def Chunk.ofBlock (b : Block) : Chunk := ⟨b.columns, b.rows⟩

/-- An error a session call can raise (spec taxonomy: transport errors and
codec decode errors). In the source these are C++ exceptions thrown by the
wrapped buffers or by the codec. -/
inductive Err
  | transport
  | decode
deriving DecidableEq

/-- The observable calls a read session makes into its codec and transport:
`reader->readPrefix()` (line 96), `reader->read()` (line 100),
`reader->readSuffix()` (line 103), and the release of `read_buf` when the
source object is destroyed (member on line 111). -/
inductive Event
  | readPrefix
  | readCall
  | readSuffix
  | releaseTransport
deriving DecidableEq

deriving instance DecidableEq for Except

/-- Occurrences of `a` in a list (used to count hook invocations in traces). -/
def countOcc {α : Type} [DecidableEq α] (a : α) : List α → Nat
  | [] => 0
  | x :: rest => (if x = a then 1 else 0) + countOcc a rest

/-- The codec behind `reader` (the format input stream wrapped by
`AddingDefaultsBlockInputStream`, lines 81-82), modelled as a black box by the
results its calls return: `prefixRes` is what `readPrefix` does (`none` =
success), `items` the results of the successive `read()` calls; once `items`
is used up, `read()` returns the empty block, the end-of-data signal of the
`IBlockInputStream` contract. -/
structure ReaderState where
  prefixRes : Option Err
  items : List (Except Err Block)
deriving DecidableEq

/-- One `reader->readPrefix()` call: succeeds or throws per `prefixRes`. -/
def ReaderState.readPrefix (r : ReaderState) : Except Err Unit :=
  match r.prefixRes with
  | some e => Except.error e
  | none => Except.ok ()

/-- One `reader->read()` call: the next scripted result, or the empty block
once the script is exhausted. -/
def ReaderState.read : ReaderState → (Except Err Block) × ReaderState
  | ⟨pe, []⟩ => (Except.ok Block.emptyBlock, ⟨pe, []⟩)
  | ⟨pe, x :: rest⟩ => (x, ⟨pe, rest⟩)

/-- The mutable state of `StorageURLSource`: `reader` (null after the
`reader.reset()` on line 104) and the `initialized` flag (line 113). The
`read_buf` member is never reset by `generate`; it is released only when the
whole object is destroyed, which `destructEvents` models. -/
structure StorageURLSource where
  reader : Option ReaderState
  initialized : Bool
deriving DecidableEq

/-- The tail of `generate` once `readPrefix` is out of the way (lines 98-106):
`initialized = true;` has already been applied to `s`, `evs` are the events
emitted so far. Reads one block; a truthy block becomes a chunk, a falsy one
triggers `readSuffix` and `reader.reset()`. An exception from `read` escapes
with the state mutated so far (C++ members keep the mutations made before a
throw). -/
def readStep (s : StorageURLSource) (r : ReaderState) (evs : List Event) :
    List Event × Except (Err × StorageURLSource) (Chunk × StorageURLSource) :=
  match ReaderState.read r with
  | (Except.error e, r1) =>
      (evs ++ [Event.readCall], Except.error (e, { s with reader := some r1 }))
  | (Except.ok b, r1) =>
      if Block.toBool b then
        (evs ++ [Event.readCall],
          Except.ok (Chunk.ofBlock b, { s with reader := some r1 }))
      else
        (evs ++ [Event.readCall, Event.readSuffix],
          Except.ok (Chunk.emptyChunk, { s with reader := none }))

/-- `StorageURLSource::generate` (lines 90-107), returning the events of the
calls it made into the codec together with either the produced chunk and the
next state, or the escaped exception and the state as mutated before the
throw. Mirrors the source line by line: null reader returns the empty chunk
at once (lines 92-93); `readPrefix` runs only when not yet initialized (lines
95-96) and a throw there leaves `initialized` still false (the assignment on
line 98 comes after); otherwise `initialized` is set and one block is read. -/
def StorageURLSource.generate (s : StorageURLSource) :
    List Event × Except (Err × StorageURLSource) (Chunk × StorageURLSource) :=
  match s.reader with
  | none => ([], Except.ok (Chunk.emptyChunk, s))
  | some r =>
      if s.initialized then
        readStep { s with initialized := true } r []
      else
        match ReaderState.readPrefix r with
        | Except.error e => ([Event.readPrefix], Except.error (e, s))
        | Except.ok _ =>
            readStep { s with initialized := true } r [Event.readPrefix]

/-- `n` successive pulls (`generate` calls) on a session, accumulating the
events. An exception aborts the pulling loop, as a C++ exception would abort
the caller's loop over the source. -/
def runPulls : StorageURLSource → Nat → List Event × StorageURLSource
  | s, 0 => ([], s)
  | s, n + 1 =>
      match StorageURLSource.generate s with
      | (evs, Except.error (_, s1)) => (evs, s1)
      | (evs, Except.ok (_, s1)) =>
          (evs ++ (runPulls s1 n).1, (runPulls s1 n).2)

/-- A well-behaved codec that decodes exactly `blocks` and then signals end of
data: no prefix error, no read error. -/
def mkReader (blocks : List Block) : ReaderState :=
  ⟨none, blocks.map Except.ok⟩

/-- A freshly constructed read session over such a codec: reader attached,
`initialized = false` (line 113). -/
def initSource (blocks : List Block) : StorageURLSource :=
  ⟨some (mkReader blocks), false⟩

/-- The events of the `StorageURLSource` destructor: `read_buf` (line 111) is
released when the object dies; `generate` itself never releases it. -/
def destructEvents : List Event := [Event.releaseTransport]

/-- The full observable trace of a read session: `n` pulls followed by the
destruction of the source object. -/
def sessionTrace (blocks : List Block) (n : Nat) : List Event :=
  (runPulls (initSource blocks) n).1 ++ destructEvents

/-- The outcome of constructing a `StorageURLSource` (constructor, lines
55-83). The constructor eagerly opens the `ReadWriteBufferFromHTTP`, wraps it
with the compression method (line 68), obtains the format input stream from
the `FormatFactory` and wraps it with `AddingDefaultsBlockInputStream` (lines
81-82) — all before any `generate` call. `transport` is the result of opening
the HTTP buffer: a C++ exception thrown there propagates out of the
constructor, so construction itself fails; on success the session starts with
the reader attached and `initialized = false`. -/
def StorageURLSource.construct (transport : Except Err Unit) (r : ReaderState) :
    Except Err StorageURLSource :=
  match transport with
  | Except.error e => Except.error e
  | Except.ok _ => Except.ok { reader := some r, initialized := false }

/-- The observable calls a write session makes into its codec and transport:
`writer->write(block)` (line 140), `writer->writePrefix()` (line 145),
`writer->writeSuffix()` (line 150), `writer->flush()` (line 151) and
`write_buf->finalize()` (line 152). -/
inductive WEvent
  | writerWrite (b : Block)
  | writerWritePrefix
  | writerWriteSuffix
  | writerFlush
  | bufFinalize
deriving DecidableEq

/-- `StorageURLBlockOutputStream::write` (lines 138-141): forwards the block
to the codec unconditionally — the class keeps no lifecycle flag (its only
members, lines 155-158, are the header block and the two stream handles), so
there is no branch to model. -/
def StorageURLBlockOutputStream.write (b : Block) : List WEvent :=
  [WEvent.writerWrite b]

/-- `StorageURLBlockOutputStream::writePrefix` (lines 143-146). -/
def StorageURLBlockOutputStream.writePrefix : List WEvent :=
  [WEvent.writerWritePrefix]

/-- `StorageURLBlockOutputStream::writeSuffix` (lines 148-153): codec
end-of-stream hook, then codec flush, then finalize of the compressed
transport buffer, in that order, unconditionally on every call. -/
def StorageURLBlockOutputStream.writeSuffix : List WEvent :=
  [WEvent.writerWriteSuffix, WEvent.writerFlush, WEvent.bufFinalize]

/-- A call a client can make on a `StorageURLBlockOutputStream`. -/
inductive WriteOp
  | write (b : Block)
  | writePrefix
  | writeSuffix
deriving DecidableEq

/-- The events of one call on the output stream. Since the class holds no
mutable lifecycle state, each call's events depend only on the call itself. -/
def writeOpEvents : WriteOp → List WEvent
  | WriteOp.write b => StorageURLBlockOutputStream.write b
  | WriteOp.writePrefix => StorageURLBlockOutputStream.writePrefix
  | WriteOp.writeSuffix => StorageURLBlockOutputStream.writeSuffix

/-- The trace of a sequence of calls on one write session. -/
def runWrite : List WriteOp → List WEvent
  | [] => []
  | op :: rest => writeOpEvents op ++ runWrite rest

/-- The error thrown by `registerStorageURL` (lines 229-231):
`ErrorCodes::NUMBER_OF_ARGUMENTS_DOESNT_MATCH`. -/
inductive RegistrationError
  | NUMBER_OF_ARGUMENTS_DOESNT_MATCH
deriving DecidableEq

/-- What the registration lambda binds the adapter to: url, format name and
compression method, all literal strings (their constant-expression evaluation
is the external collaborator `evaluateConstantExpressionOrIdentifierAsLiteral`
and is out of scope; `engine_args` below are the evaluated literals). -/
structure StorageURLDeclaration where
  url : String
  format_name : String
  compression_method : String
deriving DecidableEq

/-- The registration lambda of `registerStorageURL` (lines 225-255): any
argument count other than 2 or 3 throws `NUMBER_OF_ARGUMENTS_DOESNT_MATCH`
(lines 229-231); with 2 arguments the compression method is the literal
`"auto"` (line 247), with 3 it is the third argument (lines 243-246). -/
def registerStorageURL (engine_args : List String) :
    Except RegistrationError StorageURLDeclaration :=
  match engine_args with
  | [url, format_name] =>
      Except.ok { url := url, format_name := format_name,
                  compression_method := "auto" }
  | [url, format_name, compression_method] =>
      Except.ok { url := url, format_name := format_name,
                  compression_method := compression_method }
  | _ => Except.error RegistrationError.NUMBER_OF_ARGUMENTS_DOESNT_MATCH

/-- A `Poco::URI` as this file uses it: scheme, host, path and query
parameters. -/
structure URI where
  scheme : String
  host : String
  path : String
  query : List (String × String)
deriving DecidableEq

/-- `Poco::URI::getPath`. -/
def URI.getPath (u : URI) : String := u.path

/-- `Poco::URI::addQueryParameter` (used on line 197): appends a key/value
pair to the query string, leaving the path untouched. -/
def URI.addQueryParameter (u : URI) (kv : String × String) : URI :=
  { u with query := u.query ++ [kv] }

/-- The rendered query string: empty, or `?k1=v1&k2=v2&...`. -/
def renderQuery : List (String × String) → String
  | [] => ""
  | q => "?" ++ String.intercalate "&" (q.map fun kv => kv.1 ++ "=" ++ kv.2)

/-- `Poco::URI::toString` (used on line 220): the full rendering of the URI,
query string included. -/
def URI.toString (u : URI) : String :=
  u.scheme ++ "://" ++ u.host ++ u.path ++ renderQuery u.query

/-- The compression methods this file distinguishes. -/
inductive CompressionMethod
  | NoneMethod
  | Gzip
  | Brotli
deriving DecidableEq

/-- The characters after the last `'.'` of `s`, or `""` when `s` has no dot
(`find_last_of` / `substr` as in the resolver). -/
def fileExtension (s : String) : String :=
  let cs := s.toList
  if cs.contains '.' then
    String.mk ((cs.reverse.takeWhile (fun c => c ≠ '.')).reverse)
  else ""

/-- The fixed table of known path extensions. -/
def compressionExtensionTable : List (String × CompressionMethod) :=
  [("gz", CompressionMethod.Gzip), ("br", CompressionMethod.Brotli)]

/-- The compression method a known name resolves to. -/
def compressionNameTable : List (String × CompressionMethod) :=
  [("none", CompressionMethod.NoneMethod),
   ("gzip", CompressionMethod.Gzip),
   ("brotli", CompressionMethod.Brotli)]

/-- Modelled from the spec: `chooseCompressionMethod` (declared in
`IO/CompressionMethod.h`; its implementation is not under `src/`). Per the
spec (sections 4.3 and 6): when the configured method is `auto` (or empty),
the resolver takes the given string's suffix after the last dot and looks it
up in a fixed table of known extensions, falling back to `none` when nothing
matches; otherwise the named method is used as given (the claims below only
exercise the `auto` path, so an unknown name also falls back to `none`
here). -/
def chooseCompressionMethod (path : String) (hint : String) : CompressionMethod :=
  if hint = "auto" ∨ hint = "" then
    match compressionExtensionTable.lookup (fileExtension path) with
    | some m => m
    | none => CompressionMethod.NoneMethod
  else
    match compressionNameTable.lookup hint with
    | some m => m
    | none => CompressionMethod.NoneMethod

/-- The compression resolution performed by `IStorageURLBase::read` (lines
194-210): the pushed-down parameters are appended to a copy of the stored
URI (lines 194-197) and the method is chosen from `request_uri.getPath()`
(line 210), once, before the source (and hence any byte flow) exists. -/
def readCompression (uri : URI) (compression_method : String)
    (params : List (String × String)) : CompressionMethod :=
  let request_uri := params.foldl URI.addQueryParameter uri
  chooseCompressionMethod request_uri.getPath compression_method

/-- The compression resolution performed by `IStorageURLBase::write` (lines
215-221): the method is chosen from `uri.toString()` — the full URI
rendering, not the path — once, before the output stream exists. -/
def writeCompression (uri : URI) (compression_method : String) : CompressionMethod :=
  chooseCompressionMethod (URI.toString uri) compression_method

/-- A read session whose codec throws a decode error from `readPrefix`
(a malformed header, say): used to examine the failure path of `generate`. -/
def failSource : StorageURLSource := ⟨some ⟨some Err.decode, []⟩, false⟩

/-- A locator whose path ends in a known compression extension but whose full
rendering does not: `http://example.com/data.gz?x=1`. -/
def uriWithQuery : URI := ⟨"http", "example.com", "/data.gz", [("x", "1")]⟩

theorem countOcc_append {α : Type} [DecidableEq α] (a : α) (xs ys : List α) :
    countOcc a (xs ++ ys) = countOcc a xs + countOcc a ys := by
  induction xs with
  | nil => simp [countOcc]
  | cons x xs ih => simp [countOcc, ih, Nat.add_assoc]

theorem countOcc_replicate {α : Type} [DecidableEq α] (a b : α) (k : Nat) :
    countOcc a (List.replicate k b) = if b = a then k else 0 := by
  induction k with
  | zero => simp [countOcc]
  | succ k ih =>
      by_cases hba : b = a
      · subst hba
        simp [List.replicate_succ, countOcc, ih]
        omega
      · simp [List.replicate_succ, countOcc, ih, hba]

/-- Pulling on a session whose reader was reset does nothing: no event, no
state change (lines 92-93 of the source). -/
theorem runPulls_reader_none (n : Nat) (s : StorageURLSource)
    (h : s.reader = none) : runPulls s n = ([], s) := by
  induction n with
  | zero => rfl
  | succ n ih => simp [runPulls, StorageURLSource.generate, h, ih]

/-- Once `initialized` is set, no later pull ever calls `readPrefix` again,
whatever the codec does (lines 95-96: the call is guarded by the flag). -/
theorem runPulls_no_readPrefix (n : Nat) :
    ∀ s : StorageURLSource, s.initialized = true →
      countOcc Event.readPrefix (runPulls s n).1 = 0 := by
  induction n with
  | zero => intro s h; rfl
  | succ n ih =>
      intro s h
      rcases s with ⟨reader, init⟩
      simp only [StorageURLSource.initialized] at h
      subst h
      cases reader with
      | none =>
          simpa [runPulls, StorageURLSource.generate] using
            ih ⟨none, true⟩ rfl
      | some r =>
          rcases r with ⟨pe, items⟩
          cases items with
          | nil =>
              simpa [runPulls, StorageURLSource.generate, readStep,
                ReaderState.read, Block.toBool, Block.emptyBlock,
                countOcc_append, countOcc] using ih ⟨none, true⟩ rfl
          | cons x rest =>
              cases x with
              | error e =>
                  simp [runPulls, StorageURLSource.generate, readStep,
                    ReaderState.read, countOcc]
              | ok b =>
                  by_cases hb : Block.toBool b
                  · simpa [runPulls, StorageURLSource.generate, readStep,
                      ReaderState.read, hb, countOcc_append, countOcc] using
                      ih ⟨some ⟨pe, rest⟩, true⟩ rfl
                  · simpa [runPulls, StorageURLSource.generate, readStep,
                      ReaderState.read, hb, countOcc_append, countOcc] using
                      ih ⟨none, true⟩ rfl

/-- The full run of an already-initialized session over a codec that still has
`blocks` (all non-empty) to deliver: one `read` per block, one final `read`
returning the empty block, then `readSuffix` and the reset of the reader. -/
theorem runPulls_initialized_trace :
    ∀ blocks : List Block, (∀ b ∈ blocks, Block.toBool b = true) →
    ∀ n, blocks.length + 1 ≤ n →
      runPulls ⟨some ⟨none, blocks.map Except.ok⟩, true⟩ n
        = (List.replicate (blocks.length + 1) Event.readCall ++ [Event.readSuffix],
            ⟨none, true⟩) := by
  intro blocks
  induction blocks with
  | nil =>
      intro hb n hn
      obtain ⟨m, rfl⟩ : ∃ m, n = m + 1 := ⟨n - 1, by omega⟩
      simp [runPulls, StorageURLSource.generate, readStep, ReaderState.read,
        Block.toBool, Block.emptyBlock, runPulls_reader_none]
  | cons b rest ih =>
      intro hb n hn
      obtain ⟨m, rfl⟩ : ∃ m, n = m + 1 := ⟨n - 1, by omega⟩
      have hbt : Block.toBool b = true := hb b (by simp)
      have hrest : ∀ x ∈ rest, Block.toBool x = true := fun x hx => hb x (by simp [hx])
      have hm : rest.length + 1 ≤ m := by simp at hn; omega
      simp [runPulls, StorageURLSource.generate, readStep, ReaderState.read,
        hbt, ih hrest m hm, List.replicate_succ]

/-- A fresh session over a codec delivering `blocks` (all non-empty), pulled
at least `blocks.length + 1` times: `readPrefix` first, one `read` per block
plus the final empty `read`, then `readSuffix`, ending with the reader
reset. -/
theorem runPulls_initSource_spec (blocks : List Block)
    (hb : ∀ b ∈ blocks, Block.toBool b = true) (n : Nat)
    (hn : blocks.length + 1 ≤ n) :
    runPulls (initSource blocks) n
      = (Event.readPrefix ::
          (List.replicate (blocks.length + 1) Event.readCall ++ [Event.readSuffix]),
          ⟨none, true⟩) := by
  obtain ⟨m, rfl⟩ : ∃ m, n = m + 1 := ⟨n - 1, by omega⟩
  cases blocks with
  | nil =>
      simp [runPulls, initSource, mkReader, StorageURLSource.generate,
        ReaderState.readPrefix, readStep, ReaderState.read, Block.toBool,
        Block.emptyBlock, runPulls_reader_none]
  | cons b rest =>
      have hbt : Block.toBool b = true := hb b (by simp)
      have hrest : ∀ x ∈ rest, Block.toBool x = true := fun x hx => hb x (by simp [hx])
      have hm : rest.length + 1 ≤ m := by simp at hn; omega
      simp [runPulls, initSource, mkReader, StorageURLSource.generate,
        ReaderState.readPrefix, readStep, ReaderState.read, hbt,
        runPulls_initialized_trace rest hrest m hm, List.replicate_succ]

/-- C1: for every read session over a well-behaved codec, the start-of-stream
hook `readPrefix` fires exactly once across the session's lifetime, lazily on
the first pull — the first `generate` call invokes it before decoding (it is
the very first codec call of the trace), and no later call invokes it again,
however many batches are pulled. -/
theorem readPrefix_fires_exactly_once (blocks : List Block) (n : Nat)
    (hn : 1 ≤ n) :
    countOcc Event.readPrefix (runPulls (initSource blocks) n).1 = 1 ∧
    ((runPulls (initSource blocks) n).1).head? = some Event.readPrefix := by
  obtain ⟨m, rfl⟩ : ∃ m, n = m + 1 := ⟨n - 1, by omega⟩
  cases blocks with
  | nil =>
      have h0 := runPulls_no_readPrefix m ⟨none, true⟩ rfl
      simp [runPulls, initSource, mkReader, StorageURLSource.generate,
        ReaderState.readPrefix, readStep, ReaderState.read, Block.toBool,
        Block.emptyBlock, countOcc_append, countOcc, h0,
        runPulls_reader_none]
  | cons b rest =>
      by_cases hb : Block.toBool b
      · have h0 := runPulls_no_readPrefix m ⟨some ⟨none, rest.map Except.ok⟩, true⟩ rfl
        simp [runPulls, initSource, mkReader, StorageURLSource.generate,
          ReaderState.readPrefix, readStep, ReaderState.read, hb,
          countOcc_append, countOcc, h0]
      · have h0 := runPulls_no_readPrefix m ⟨none, true⟩ rfl
        simp [runPulls, initSource, mkReader, StorageURLSource.generate,
          ReaderState.readPrefix, readStep, ReaderState.read, hb,
          countOcc_append, countOcc, h0]

/-- Witness for C1 at a concrete input: a one-block codec pulled three
times. -/
theorem readPrefix_fires_exactly_once_witness :
    countOcc Event.readPrefix (runPulls (initSource [⟨["a"], 1⟩]) 3).1 = 1 ∧
    ((runPulls (initSource [⟨["a"], 1⟩]) 3).1).head? = some Event.readPrefix :=
  readPrefix_fires_exactly_once [⟨["a"], 1⟩] 3 (by decide)

/-- C2: over a full session (enough pulls to exhaust a well-behaved codec,
then destruction of the source), the end-of-stream hook `readSuffix` fires
exactly once; the explicit trace shows it fires only after the final `read`
that follows the last non-empty batch, and before the transport handle
`read_buf` is released. -/
theorem readSuffix_once_after_last_batch (blocks : List Block)
    (hb : ∀ b ∈ blocks, Block.toBool b = true) (n : Nat)
    (hn : blocks.length + 1 ≤ n) :
    sessionTrace blocks n
      = Event.readPrefix ::
          (List.replicate (blocks.length + 1) Event.readCall
            ++ [Event.readSuffix, Event.releaseTransport]) ∧
    countOcc Event.readSuffix (sessionTrace blocks n) = 1 := by
  have h := runPulls_initSource_spec blocks hb n hn
  constructor
  · simp [sessionTrace, h, destructEvents]
  · simp [sessionTrace, h, destructEvents, countOcc_append, countOcc,
      countOcc_replicate]

/-- Witness for C2 at a concrete input: a one-block codec pulled twice. -/
theorem readSuffix_once_after_last_batch_witness :
    sessionTrace [⟨["a"], 1⟩] 2
      = Event.readPrefix ::
          (List.replicate 2 Event.readCall
            ++ [Event.readSuffix, Event.releaseTransport]) ∧
    countOcc Event.readSuffix (sessionTrace [⟨["a"], 1⟩] 2) = 1 :=
  readSuffix_once_after_last_batch [⟨["a"], 1⟩] (by decide) 2 (by decide)

/-- C4: after a session is exhausted (the codec signalled end of data and
`readSuffix` fired, so `reader` was reset), the terminal state is absorbing:
its reader is null, every further pull returns the empty chunk with no error,
no codec call and no state change, however many times it is repeated. -/
theorem exhausted_pull_is_noop (blocks : List Block)
    (hb : ∀ b ∈ blocks, Block.toBool b = true) (n : Nat)
    (hn : blocks.length + 1 ≤ n) :
    ((runPulls (initSource blocks) n).2).reader = none ∧
    StorageURLSource.generate ((runPulls (initSource blocks) n).2)
      = ([], Except.ok (Chunk.emptyChunk, (runPulls (initSource blocks) n).2)) ∧
    ∀ m, runPulls ((runPulls (initSource blocks) n).2) m
      = ([], (runPulls (initSource blocks) n).2) := by
  have h := runPulls_initSource_spec blocks hb n hn
  refine ⟨by simp [h], by simp [h, StorageURLSource.generate], fun m => ?_⟩
  exact runPulls_reader_none m _ (by simp [h])

/-- Witness for C4 at a concrete input: the state after exhausting a
one-block codec with two pulls, pulled five more times. -/
theorem exhausted_pull_is_noop_witness :
    ((runPulls (initSource [⟨["a"], 1⟩]) 2).2).reader = none ∧
    StorageURLSource.generate ((runPulls (initSource [⟨["a"], 1⟩]) 2).2)
      = ([], Except.ok (Chunk.emptyChunk, (runPulls (initSource [⟨["a"], 1⟩]) 2).2)) ∧
    ∀ m, runPulls ((runPulls (initSource [⟨["a"], 1⟩]) 2).2) m
      = ([], (runPulls (initSource [⟨["a"], 1⟩]) 2).2) :=
  exhausted_pull_is_noop [⟨["a"], 1⟩] (by decide) 2 (by decide)

/-- C5 fails as stated: at the concrete input `failSource` (a codec whose
`readPrefix` throws a decode error) the first pull surfaces the error, but the
session does NOT transition to a terminal-failed state — the returned state is
`failSource` itself, unchanged (`initialized` still false, reader still
attached), so a further pull reaches the codec again: it re-invokes
`readPrefix`, and across the two pulls the start-of-stream hook runs twice. -/
theorem pull_error_not_terminal_counterexample :
    (StorageURLSource.generate failSource).2
      = Except.error (Err.decode, failSource) ∧
    (StorageURLSource.generate failSource).1 = [Event.readPrefix] ∧
    countOcc Event.readPrefix
      ((StorageURLSource.generate failSource).1
        ++ (StorageURLSource.generate failSource).1) = 2 := by
  decide

/-- C5 as amended: when a pull fails (a transport or decode error thrown by
the codec during `readPrefix` or `read`), the error surfaces immediately to
the caller and no partial batch is returned (the error result carries no
chunk); however `generate` has no failure handling, so the session is left
non-terminal: after a `readPrefix` throw the state is unchanged (`initialized`
still false, so the next pull re-invokes `readPrefix`), and after a `read`
throw the reader stays attached (`initialized` now true), so the next pull
calls the codec's `read` again. -/
theorem pull_error_surfaces_not_terminal (e : Err) (pe : Option Err)
    (items : List (Except Err Block)) :
    (pe = some e →
      StorageURLSource.generate ⟨some ⟨pe, items⟩, false⟩
        = ([Event.readPrefix], Except.error (e, ⟨some ⟨pe, items⟩, false⟩))) ∧
    StorageURLSource.generate ⟨some ⟨none, Except.error e :: items⟩, true⟩
      = ([Event.readCall], Except.error (e, ⟨some ⟨none, items⟩, true⟩)) := by
  constructor
  · intro h
    subst h
    simp [StorageURLSource.generate, ReaderState.readPrefix]
  · simp [StorageURLSource.generate, readStep, ReaderState.read]

theorem runWrite_append (xs ys : List WriteOp) :
    runWrite (xs ++ ys) = runWrite xs ++ runWrite ys := by
  induction xs with
  | nil => rfl
  | cons op rest ih => simp [runWrite, ih]

theorem foldl_addQueryParameter_path (params : List (String × String)) :
    ∀ uri : URI, (params.foldl URI.addQueryParameter uri).path = uri.path := by
  induction params with
  | nil => intro uri; rfl
  | cons p rest ih => intro uri; simp [List.foldl_cons, URI.addQueryParameter, ih]

/-- C3: registering a URL table with an argument count other than 2 or 3
throws `NUMBER_OF_ARGUMENTS_DOESNT_MATCH`, and with exactly 2 arguments the
compression method resolves to the literal string `"auto"`. -/
theorem registerStorageURL_argument_count (engine_args : List String) :
    (engine_args.length ≠ 2 → engine_args.length ≠ 3 →
      registerStorageURL engine_args
        = Except.error RegistrationError.NUMBER_OF_ARGUMENTS_DOESNT_MATCH) ∧
    (engine_args.length = 2 →
      ∃ d, registerStorageURL engine_args = Except.ok d ∧
        d.compression_method = "auto") := by
  rcases engine_args with _ | ⟨a, _ | ⟨b, _ | ⟨c, rest⟩⟩⟩
  · exact ⟨fun _ _ => rfl, fun h => by simp at h⟩
  · exact ⟨fun _ _ => rfl, fun h => by simp at h⟩
  · exact ⟨fun h2 _ => absurd rfl h2,
      fun _ => ⟨⟨a, b, "auto"⟩, rfl, rfl⟩⟩
  · refine ⟨fun h2 h3 => ?_, fun h => by simp at h⟩
    cases rest with
    | nil => exact absurd rfl h3
    | cons d more => rfl

/-- C6 fails as stated: at the concrete input of a `writeSuffix` (close)
followed by a `write`, the write is not rejected — the block is forwarded to
the codec (`writer->write`, line 140), i.e. I/O is performed after close and
no lifecycle-violation error exists anywhere on that path (the class keeps no
closed flag at all, lines 155-158). -/
theorem write_after_close_counterexample :
    runWrite [WriteOp.writeSuffix, WriteOp.write ⟨["c"], 1⟩]
      = [WEvent.writerWriteSuffix, WEvent.writerFlush, WEvent.bufFinalize,
         WEvent.writerWrite ⟨["c"], 1⟩] ∧
    countOcc (WEvent.writerWrite ⟨["c"], 1⟩)
      (runWrite [WriteOp.writeSuffix, WriteOp.write ⟨["c"], 1⟩]) = 1 := by
  decide

/-- C6 as amended: `write` is unguarded — after any history of calls on the
session, `writeSuffix` included, a `write` forwards the block to the codec
unconditionally (exactly one `writer->write` I/O event, no error raised, no
state consulted or changed). -/
theorem write_after_close_unguarded (ops : List WriteOp) (b : Block) :
    runWrite (ops ++ [WriteOp.write b]) = runWrite ops ++ [WEvent.writerWrite b] ∧
    runWrite [WriteOp.writeSuffix, WriteOp.write b]
      = StorageURLBlockOutputStream.writeSuffix ++ [WEvent.writerWrite b] := by
  constructor
  · simp [runWrite_append, runWrite, writeOpEvents,
      StorageURLBlockOutputStream.write]
  · rfl

/-- C7: closing a write session (after any sequence of accepted batches)
performs exactly, and in this order: the codec's end-of-stream hook
(`writer->writeSuffix`), the flush of buffered encoded bytes
(`writer->flush`), and the finalization of the compressed transport
(`write_buf->finalize`) that completes the network request. -/
theorem writeSuffix_sequence (bs : List Block) :
    runWrite (bs.map WriteOp.write ++ [WriteOp.writeSuffix])
      = bs.map WEvent.writerWrite
        ++ [WEvent.writerWriteSuffix, WEvent.writerFlush, WEvent.bufFinalize] := by
  induction bs with
  | nil => rfl
  | cons b rest ih =>
      simp [runWrite, writeOpEvents, StorageURLBlockOutputStream.write, ih]

/-- C10: `writeSuffix` keeps no has-been-closed state: after any history it
unconditionally re-runs the full end sequence, so two consecutive closes run
the codec's end-of-stream hook twice and finalize the transport twice. -/
theorem writeSuffix_not_latched (ops : List WriteOp) :
    runWrite (ops ++ [WriteOp.writeSuffix])
      = runWrite ops
        ++ [WEvent.writerWriteSuffix, WEvent.writerFlush, WEvent.bufFinalize] ∧
    countOcc WEvent.writerWriteSuffix
      (runWrite [WriteOp.writeSuffix, WriteOp.writeSuffix]) = 2 ∧
    countOcc WEvent.bufFinalize
      (runWrite [WriteOp.writeSuffix, WriteOp.writeSuffix]) = 2 := by
  refine ⟨?_, by decide, by decide⟩
  simp [runWrite_append, runWrite, writeOpEvents,
    StorageURLBlockOutputStream.writeSuffix]

/-- C8 fails as stated: at the concrete locator
`http://example.com/data.gz?x=1` the write session does not resolve `auto`
from the locator's path suffix — `IStorageURLBase::write` (line 220) passes
`uri.toString()`, the full rendering with the query string, so the resolved
method is `none`, while the path-suffix rule the claim states (and the read
side uses) yields `gzip`. -/
theorem write_compression_counterexample :
    writeCompression uriWithQuery "auto" = CompressionMethod.NoneMethod ∧
    chooseCompressionMethod (URI.getPath uriWithQuery) "auto"
      = CompressionMethod.Gzip := by
  decide

/-- C8 as amended: for both sessions the compression method is resolved once,
at `read()`/`write()` time, before any bytes flow; the read session resolves
it from the locator's path suffix (the query parameters appended for the
request do not affect the path), but the write session resolves it from the
full URI string `uri.toString()`, which matches the path-suffix rule only
when the rendered URI ends with the path. -/
theorem compression_resolved_from_locator (uri : URI) (cm : String)
    (params : List (String × String)) :
    readCompression uri cm params = chooseCompressionMethod (URI.getPath uri) cm ∧
    writeCompression uri cm = chooseCompressionMethod (URI.toString uri) cm := by
  constructor
  · simp [readCompression, URI.getPath, foldl_addQueryParameter_path]
  · rfl

/-- C9: the read session's transport and codec are built eagerly in the
`StorageURLSource` constructor, at `read()` time: a failure opening the HTTP
buffer propagates out of construction itself (before any pull), and a
successful construction yields the session with the reader attached and no
hook yet fired (`initialized = false`) — the start-of-stream hook is then the
first codec call of the first pull. -/
theorem construct_is_eager (e : Err) (r : ReaderState) :
    StorageURLSource.construct (Except.error e) r = Except.error e ∧
    StorageURLSource.construct (Except.ok ()) r = Except.ok ⟨some r, false⟩ ∧
    ((StorageURLSource.generate ⟨some r, false⟩).1).head? = some Event.readPrefix := by
  refine ⟨rfl, rfl, ?_⟩
  rcases r with ⟨pe, items⟩
  cases pe with
  | some e2 => simp [StorageURLSource.generate, ReaderState.readPrefix]
  | none =>
      cases items with
      | nil =>
          simp [StorageURLSource.generate, ReaderState.readPrefix, readStep,
            ReaderState.read, Block.toBool, Block.emptyBlock]
      | cons x rest =>
          cases x with
          | error e2 =>
              simp [StorageURLSource.generate, ReaderState.readPrefix,
                readStep, ReaderState.read]
          | ok b =>
              by_cases hb : Block.toBool b <;>
                simp [StorageURLSource.generate, ReaderState.readPrefix,
                  readStep, ReaderState.read, hb]
